import Mathlib

/-!
Shallow embedding of `qwaykee/statistics` (src/main.go) and verification of
the frozen claims about its specification.

Modelling conventions:
* Go `time.Time` / `time.Duration` values are modelled as `Int` (nanoseconds).
* Go maps are modelled as insertion-ordered association lists; Go map
  iteration order is unspecified, insertion order is one admissible order.
* Go pointers to `Visit` objects are modelled by a heap: `Statistics.heap`
  is the list of all allocated `Visit` objects and entities hold heap
  indices; writing through a pointer is `List.set` on the heap.
* Go integer division panics when the divisor is zero, so every operation
  that divides returns `Option _`, with `none` marking the panic.
* The gin middleware closure (src/main.go lines 92-174) is split in two
  atomic steps exactly like the source: `Statistics.alloc` is the first
  locked block (lines 93-98) and `Statistics.postProcess` the second
  (lines 109-173); the downstream handler runs between them outside the
  lock, so steps of concurrent requests may interleave.
-/

namespace SGo

/-- PageType is a Go string type (src/main.go line 54). -/
abbrev PageType := String

/-- Dynamic = "route" (src/main.go line 58). -/
def Dynamic : PageType := "route"

/-- Static = "static" (src/main.go line 59). -/
def Static : PageType := "static"

/-- Visit (src/main.go lines 39-50).  `visitedBy` and `page` are the owning
references, modelled by the visitor's key (IP) and the page's key (path). -/
structure Visit where
  id : Int
  date : Int
  type : PageType
  loadingTime : Int
  timeSpent : Int
  codeIssued : Int
  contentType : String
  referer : String
  visitedBy : String
  page : String
deriving Repr, DecidableEq

/-- The zero value `Visit{}` of Go. -/
def Visit.zero : Visit := ⟨0, 0, "", 0, 0, 0, "", "", "", ""⟩

/-- Page (src/main.go lines 26-29); `visits` holds heap indices. -/
structure Page where
  path : String
  visits : List Nat
deriving Repr, DecidableEq

/-- The zero value `Page{}` of Go. -/
def Page.empty : Page := ⟨"", []⟩

/-- Visitor (src/main.go lines 31-37); `history` holds heap indices. -/
structure Visitor where
  ip : String
  language : String
  dynamicVisits : Nat
  staticVisits : Nat
  history : List Nat
deriving Repr, DecidableEq

/-- The zero value `Visitor{}` of Go. -/
def Visitor.zero : Visitor := ⟨"", "", 0, 0, []⟩

/-- Statistics (src/main.go lines 16-24).  `heap` is the store of all
allocated Visit objects; `visits` maps a visit ID to a heap index. -/
structure Statistics where
  visitors : List (String × Visitor)
  pages : List (String × Page)
  visits : List (Int × Nat)
  visitorsLanguage : List (String × Int)
  currentVisitID : Int
  heap : List Visit
deriving Repr

/-- New (src/main.go lines 62-69). -/
def Statistics.new : Statistics := ⟨[], [], [], [], 0, []⟩

/-- Go map read `m[k]` returning presence. -/
def lookupA {κ α : Type} [DecidableEq κ] : List (κ × α) → κ → Option α
  | [], _ => none
  | kv :: rest, k => if kv.1 = k then some kv.2 else lookupA rest k

/-- Go in-place mutation of the entity stored under key `k`. -/
def modifyA {κ α : Type} [DecidableEq κ] (l : List (κ × α)) (k : κ) (f : α → α) :
    List (κ × α) :=
  l.map (fun kv => if kv.1 = k then (kv.1, f kv.2) else kv)

/-- Go map write `m[k] = a`: overwrite when the key is present, append
otherwise. -/
def insertOver {κ α : Type} [DecidableEq κ] (l : List (κ × α)) (k : κ) (a : α) :
    List (κ × α) :=
  if (lookupA l k).isSome then modifyA l k (fun _ => a) else l ++ [(k, a)]

/-- Character-level test that `sub` is an initial segment of `s`
(the character comparison of Go's strings package). -/
def startsWithChars : List Char → List Char → Bool
  | _, [] => true
  | [], _ :: _ => false
  | a :: as, b :: bs => a = b && startsWithChars as bs

/-- strings.Contains at the character level. -/
def containsChars (s sub : List Char) : Bool :=
  match s with
  | [] => startsWithChars [] sub
  | _ :: rest => startsWithChars s sub || containsChars rest sub

/-- strings.Contains(contentType, "text/html") (src/main.go line 148). -/
def containsTextHtml (s : String) : Bool :=
  containsChars s.data "text/html".data

/-- All matches of the regexp `([a-z]{2});` in a character list
(src/main.go lines 90 and 124): two lowercase ASCII letters directly
followed by a semicolon, scanned left to right without overlap. -/
def langMatches : List Char → List String
  | a :: b :: c :: rest =>
    if a.isLower && b.isLower && c = ';' then
      String.mk [a, b] :: langMatches rest
    else
      langMatches (b :: c :: rest)
  | _ => []
termination_by l => l.length

/-- Go `m[k] = m[k] + 1` on the language tally (src/main.go line 125):
a missing key reads as zero. -/
def bumpLang (t : List (String × Int)) (k : String) : List (String × Int) :=
  match lookupA t k with
  | some _ => modifyA t k (· + 1)
  | none => t ++ [(k, 1)]

/-- Tally every regexp match of the Accept-Language header
(src/main.go lines 124-126). -/
def tallyLangs (t : List (String × Int)) (lang : String) : List (String × Int) :=
  (langMatches lang.data).foldl bumpLang t

/-- Dereference a list of heap indices (a Go `[]*Visit`). -/
def derefAll (heap : List Visit) (idxs : List Nat) : List Visit :=
  idxs.filterMap (fun i => heap[i]?)

/-- Body shared by Page.AverageTimeSpent (src/main.go lines 297-309) and
Visitor.AverageTimeSpent (lines 349-361): both filter on `Type == "route"`,
sum TimeSpent and divide by the count; Go panics when the count is zero,
modelled as `none`. -/
def avgTimeSpent (visits : List Visit) : Option Int :=
  let dyn := visits.filter (fun v => decide (v.type = Dynamic))
  if dyn.length = 0 then none
  else some ((dyn.map Visit.timeSpent).sum / (dyn.length : Int))

/-- Page.AverageLoadingTime (src/main.go lines 311-323): filter on
`Type == Dynamic`, sum LoadingTime, divide by the count (panic when zero). -/
def avgLoadingTime (visits : List Visit) : Option Int :=
  let dyn := visits.filter (fun v => decide (v.type = Dynamic))
  if dyn.length = 0 then none
  else some ((dyn.map Visit.loadingTime).sum / (dyn.length : Int))

/-- Page.AverageTimeSpent on a page of the model. -/
def Page.averageTimeSpent (p : Page) (heap : List Visit) : Option Int :=
  avgTimeSpent (derefAll heap p.visits)

/-- Page.AverageLoadingTime on a page of the model. -/
def Page.averageLoadingTime (p : Page) (heap : List Visit) : Option Int :=
  avgLoadingTime (derefAll heap p.visits)

/-- Visitor.AverageTimeSpent on a visitor of the model. -/
def Visitor.averageTimeSpent (v : Visitor) (heap : List Visit) : Option Int :=
  avgTimeSpent (derefAll heap v.history)

/-- Visitor.LastDynamicVisit (src/main.go lines 367-377) scans the history
from the last index down to 0 and returns the first visit of Type Dynamic,
i.e. the last dynamic element of the list; `none` when there is none. -/
def findLastDynamic : List Visit → Option Visit
  | [] => none
  | v :: rest =>
    match findLastDynamic rest with
    | some w => some w
    | none => if v.type = Dynamic then some v else none

/-- Visitor.LastDynamicVisit over a dereferenced history: the source
returns the zero value `&Visit{}` when no dynamic visit exists. -/
def lastDynamicVisit (history : List Visit) : Visit :=
  (findLastDynamic history).getD Visit.zero

/-- Index-level LastDynamicVisit used by the recorder: returns the heap
index of the last history entry whose heap object has Type Dynamic. -/
def findLastDynamicIdx (heap : List Visit) : List Nat → Option Nat
  | [] => none
  | i :: rest =>
    match findLastDynamicIdx heap rest with
    | some j => some j
    | none =>
      match heap[i]? with
      | some w => if w.type = Dynamic then some i else none
      | none => none

/-- Visitor.LastDynamicVisit as a heap index. -/
def Visitor.lastDynamicVisitIdx (v : Visitor) (heap : List Visit) : Option Nat :=
  findLastDynamicIdx heap v.history

/-- Request description handed to the middleware by the excluded HTTP
layer, together with the response data read after the handler completes. -/
structure Request where
  path : String
  ip : String
  acceptLanguage : String
  referer : String
  override : Option PageType
  contentType : String
  codeIssued : Int
  loadingTime : Int
deriving Repr

/-- First locked block of the middleware (src/main.go lines 93-98):
increment the counter and stash the allocated ID in the request context. -/
def Statistics.alloc (s : Statistics) : Statistics × Int :=
  ({ s with currentVisitID := s.currentVisitID + 1 }, s.currentVisitID + 1)

/-- The retroactive TimeSpent update (src/main.go lines 133-137): write
`now - w.date` into the last dynamic visit of the visitor.  When no dynamic
visit exists the source writes into a fresh `&Visit{}` placeholder, which
is unobservable, so the heap is unchanged. -/
def touchLastDynamic (heap : List Visit) (v : Visitor) (now : Int) : List Visit :=
  if v.history.length > 1 then
    match v.lastDynamicVisitIdx heap with
    | some i =>
      match heap[i]? with
      | some w => heap.set i { w with timeSpent := now - w.date }
      | none => heap
    | none => heap
  else heap

/-- Visitor created lazily on first contact (src/main.go lines 119-122):
IP and raw Accept-Language header, zero counters, empty history. -/
def freshVisitor (r : Request) : Visitor := ⟨r.ip, r.acceptLanguage, 0, 0, []⟩

/-- Lazy Page creation (src/main.go lines 112-114): the new entity is the
zero value `&Page{}` — the Path field is left empty. -/
def lazyPages (s : Statistics) (r : Request) : List (String × Page) :=
  if (lookupA s.pages r.path).isSome then s.pages
  else s.pages ++ [(r.path, Page.empty)]

/-- Lazy Visitor creation (src/main.go lines 116-128). -/
def lazyVisitors (s : Statistics) (r : Request) : List (String × Visitor) :=
  if (lookupA s.visitors r.ip).isNone then s.visitors ++ [(r.ip, freshVisitor r)]
  else s.visitors

/-- Language tally update, run only when the visitor is new
(src/main.go lines 124-126). -/
def lazyLangs (s : Statistics) (r : Request) : List (String × Int) :=
  if (lookupA s.visitors r.ip).isNone then
    tallyLangs s.visitorsLanguage r.acceptLanguage
  else s.visitorsLanguage

/-- The visitor fetched at src/main.go line 130, after lazy creation (the
default is unreachable: the key was just inserted when absent). -/
def curVisitor (s : Statistics) (r : Request) : Visitor :=
  (lookupA (lazyVisitors s r) r.ip).getD (freshVisitor r)

/-- Page-type classification (src/main.go lines 139-152): an explicit
override wins, otherwise a content type containing `text/html` is Dynamic
and anything else Static. -/
def classify (r : Request) : PageType :=
  match r.override with
  | some t => t
  | none => if containsTextHtml r.contentType then Dynamic else Static

/-- Counter increments (src/main.go lines 154-155) followed by the history
append (line 172) on the same visitor object. -/
def stepVisitor (v : Visitor) (pt : PageType) (idx : Nat) : Visitor :=
  { v with
    dynamicVisits := v.dynamicVisits + (if pt = Dynamic then 1 else 0),
    staticVisits := v.staticVisits + (if pt = Static then 1 else 0),
    history := v.history ++ [idx] }

/-- Visit construction (src/main.go lines 158-169); the `id` argument is
whatever the source reads there. -/
def mkVisit (id now : Int) (pt : PageType) (r : Request) : Visit :=
  ⟨id, now, pt, r.loadingTime, 0, r.codeIssued, r.contentType, r.referer,
    r.ip, r.path⟩

/-- Second locked block of the middleware (src/main.go lines 109-173):
lazy Page and Visitor creation, the retroactive TimeSpent update,
classification, counter increments, Visit construction — note line 159
reads `s.currentVisitID` instead of the context value stored at
allocation — and the three appends. -/
def Statistics.postProcess (s : Statistics) (r : Request) (now : Int) : Statistics :=
  let heap1 := touchLastDynamic s.heap (curVisitor s r) now
  let newIdx := heap1.length
  { s with
    pages := modifyA (lazyPages s r) r.path
      (fun p => { p with visits := p.visits ++ [newIdx] }),
    visitors := modifyA (lazyVisitors s r) r.ip
      (fun _ => stepVisitor (curVisitor s r) (classify r) newIdx),
    visits := insertOver s.visits s.currentVisitID newIdx,
    visitorsLanguage := lazyLangs s r,
    heap := heap1 ++ [mkVisit s.currentVisitID now (classify r) r] }

/-- One complete sequential recording: allocation directly followed by the
post-processing block. -/
def Statistics.record (s : Statistics) (r : Request) (now : Int) : Statistics :=
  (s.alloc).1.postProcess r now

/-- GetPage (src/main.go lines 177-186): zero-value placeholder on a miss. -/
def Statistics.getPage (s : Statistics) (path : String) : Page :=
  (lookupA s.pages path).getD Page.empty

/-- GetVisitor (src/main.go lines 188-197). -/
def Statistics.getVisitor (s : Statistics) (ip : String) : Visitor :=
  (lookupA s.visitors ip).getD Visitor.zero

/-- VisitsCount (src/main.go lines 210-215): size of the ID-keyed map. -/
def Statistics.visitsCount (s : Statistics) : Nat := s.visits.length

/-- VisitorsCount (src/main.go lines 217-222). -/
def Statistics.visitorsCount (s : Statistics) : Nat := s.visitors.length

/-- AverageDynamicVisitsPerVisitor (src/main.go lines 239-248): total
history length over the visitor count; Go panics when there is no
visitor, modelled as `none`. -/
def Statistics.averageDynamicVisitsPerVisitor (s : Statistics) : Option Int :=
  if s.visitors.length = 0 then none
  else some ((s.visitors.map (fun kv => (kv.2.history.length : Int))).sum /
    (s.visitors.length : Int))

/-- Loop body of EstimatedCurrentVisitors (src/main.go lines 230-234):
compare `time.Since(v.LastDynamicVisit().Date) < v.AverageTimeSpent()` for
every visitor; the call to AverageTimeSpent panics (`none`) for a visitor
without dynamic visits and the panic propagates. -/
def estimatedLoop (heap : List Visit) (now : Int) :
    List (String × Visitor) → Option Nat
  | [] => some 0
  | (_, v) :: rest =>
    let hist := derefAll heap v.history
    match avgTimeSpent hist with
    | none => none
    | some avg =>
      match estimatedLoop heap now rest with
      | none => none
      | some n => some (if now - (lastDynamicVisit hist).date < avg then n + 1 else n)

/-- EstimatedCurrentVisitors (src/main.go lines 224-237). -/
def Statistics.estimatedCurrentVisitors (s : Statistics) (now : Int) : Option Nat :=
  estimatedLoop s.heap now s.visitors

/-- The copy step of MostVisitedPages (src/main.go lines 253-257):
`make([]*Page, len(s.Pages))` creates len nil entries and the loop then
appends every page after them; `none` models a nil `*Page`. -/
def Statistics.pagesSliceCopy (s : Statistics) : List (Option Page) :=
  List.replicate s.pages.length none ++ s.pages.map (fun kv => some kv.2)

/-- Comparator of the sort in MostVisitedPages (src/main.go lines 261-263):
`cmp.Compare(len(a.Visits), len(b.Visits))` dereferences both pointers, so
a nil argument is a panic, modelled as `none`. -/
def pageCmp (a b : Option Page) : Option Ordering :=
  match a, b with
  | some a, some b => some (compare a.visits.length b.visits.length)
  | _, _ => none

/-- Loop of slices.BinarySearchFunc (Go standard library), specialised to
the comparator `a.Date.Compare(b.Date)` used by Page.GetVisit
(src/main.go lines 325-335) and Visitor.GetVisit (lines 379-389). -/
def bsearch (xs : List Visit) (d : Int) (i j : Nat) : Nat :=
  if h : i < j then
    if (xs.getD ((i + j) / 2) Visit.zero).date < d then
      bsearch xs d ((i + j) / 2 + 1) j
    else
      bsearch xs d i ((i + j) / 2)
  else i
termination_by j - i
decreasing_by
  · omega
  · omega

/-- GetVisit by timestamp over a dereferenced visit sequence: return the
element at the final search position when it is an exact match, else the
not-found error (`none` stands for `fmt.Errorf("visit not found")`). -/
def getVisitByDate (visits : List Visit) (d : Int) : Option Visit :=
  match visits[bsearch visits d 0 visits.length]? with
  | some v => if v.date = d then some v else none
  | none => none

/-- Dynamic-visit plus static-visit count matches the history length. -/
def Visitor.countsOk (v : Visitor) : Prop :=
  v.dynamicVisits + v.staticVisits = v.history.length

instance (v : Visitor) : Decidable v.countsOk := by
  unfold Visitor.countsOk; infer_instance

/-- Restriction of C9: an explicit override, when present, is one of the
two declared constants. -/
def goodOverride (r : Request) : Prop :=
  r.override = none ∨ r.override = some Dynamic ∨ r.override = some Static

/-- Record a whole sequence of requests starting from the fresh state. -/
def Statistics.recordAll (steps : List (Request × Int)) : Statistics :=
  steps.foldl (fun s p => s.record p.1 p.2) Statistics.new

/-- A dynamic request used in concrete scenarios (explicit override, as
permitted by the middleware contract). -/
def reqDyn (p ip : String) : Request :=
  ⟨p, ip, "", "", some Dynamic, "text/html", 200, 100⟩

/-- A static request used in concrete scenarios. -/
def reqStatic (p ip : String) : Request :=
  ⟨p, ip, "", "", some Static, "image/png", 200, 50⟩

instance (r : Request) : Decidable (goodOverride r) := by
  unfold goodOverride; infer_instance

/-- State of the C1 scenario: two concurrent requests whose identifier
allocations both run before either post-processing block (the downstream
handlers execute between the two locked sections). -/
def c1s : Statistics :=
  (((Statistics.new.alloc).1.alloc).1.postProcess (reqDyn "/a" "ip1") 10).postProcess
    (reqDyn "/b" "ip2") 20

/-- State with exactly one static visit (zero dynamic visits). -/
def c2s : Statistics := Statistics.new.record (reqStatic "/a" "ip1") 10

/-- The request of the three-dynamic-visit scenario of C3. -/
def c3r : Request := reqDyn "/a" "1.2.3.4"

/-- C3 scenario after the visits at t0 = 10 and t1 = 15. -/
def c3s2 : Statistics := (Statistics.new.record c3r 10).record c3r 15

/-- C3 scenario after the third visit at t2 = 22. -/
def c3s3 : Statistics := c3s2.record c3r 22

/-- The visitor entity of the C3 scenario after two recordings. -/
def c3v : Visitor := ⟨"1.2.3.4", "", 2, 0, [0, 1]⟩

/-- The heap object at index 1 of the C3 scenario after two recordings. -/
def c3w : Visit := ⟨2, 15, Dynamic, 100, 0, 200, "text/html", "", "1.2.3.4", "/a"⟩

/-- State with one page, used against the page-sort copy step. -/
def c5s : Statistics := Statistics.new.record (reqDyn "/a" "ip1") 10

/-- State after recording one request for path "/a". -/
def c7s : Statistics := Statistics.new.record (reqDyn "/a" "ip1") 10

/-- Visit literals of the C8 witness, chronologically ordered. -/
def c8v1 : Visit := { Visit.zero with id := 1, date := 10 }

/-- Second visit of the C8 witness. -/
def c8v2 : Visit := { Visit.zero with id := 2, date := 15 }

/-- Third visit of the C8 witness. -/
def c8v3 : Visit := { Visit.zero with id := 3, date := 22 }

/-! Helper lemmas. -/

theorem findLastDynamic_eq_filter_getLast (l : List Visit) :
    findLastDynamic l = (l.filter (fun v => decide (v.type = Dynamic))).getLast? := by
  induction l with
  | nil => rfl
  | cons v rest ih =>
    rw [findLastDynamic, List.filter_cons]
    cases hf : findLastDynamic rest with
    | some w =>
      rw [ih] at hf
      show some w = _
      by_cases hv : v.type = Dynamic
      · rw [if_pos (by simp [hv])]
        cases hrest : rest.filter (fun v => decide (v.type = Dynamic)) with
        | nil => rw [hrest] at hf; simp at hf
        | cons c l' =>
          rw [hrest] at hf
          rw [List.getLast?_cons_cons]
          exact hf.symm
      · rw [if_neg (by simp [hv])]
        exact hf.symm
    | none =>
      rw [ih] at hf
      have hempty : rest.filter (fun v => decide (v.type = Dynamic)) = [] :=
        List.getLast?_eq_none_iff.mp hf
      show (if v.type = Dynamic then some v else none) = _
      by_cases hv : v.type = Dynamic
      · rw [if_pos hv, if_pos (by simp [hv]), hempty]
        rfl
      · rw [if_neg hv, if_neg (by simp [hv]), hempty]
        rfl

theorem lookupA_mem {κ α : Type} [DecidableEq κ] {l : List (κ × α)} {k : κ} {v : α}
    (h : lookupA l k = some v) : (k, v) ∈ l := by
  induction l with
  | nil => simp [lookupA] at h
  | cons kv rest ih =>
    rw [lookupA] at h
    by_cases hk : kv.1 = k
    · rw [if_pos hk] at h
      have : kv = (k, v) := by
        obtain ⟨k1, v1⟩ := kv
        simp only at hk
        simp only [Option.some.injEq] at h
        rw [hk, h]
      rw [← this]
      exact List.mem_cons_self _ _
    · rw [if_neg hk] at h
      exact List.mem_cons_of_mem _ (ih h)

theorem mem_modifyA {κ α : Type} [DecidableEq κ] {l : List (κ × α)} {k : κ} {f : α → α}
    {kv : κ × α} (h : kv ∈ modifyA l k f) :
    kv ∈ l ∨ ∃ kv' ∈ l, kv = (kv'.1, f kv'.2) := by
  unfold modifyA at h
  obtain ⟨kv', hmem, heq⟩ := List.mem_map.mp h
  by_cases hk : kv'.1 = k
  · right
    refine ⟨kv', hmem, ?_⟩
    rw [← heq, if_pos hk]
  · left
    rw [← heq, if_neg hk]
    exact hmem

theorem lazyVisitors_countsOk {s : Statistics} {r : Request}
    (hs : ∀ kv ∈ s.visitors, kv.2.countsOk) :
    ∀ kv ∈ lazyVisitors s r, kv.2.countsOk := by
  intro kv hkv
  unfold lazyVisitors at hkv
  split at hkv
  · rcases List.mem_append.mp hkv with h | h
    · exact hs kv h
    · rw [List.mem_singleton.mp h]
      rfl
  · exact hs kv hkv

theorem curVisitor_countsOk {s : Statistics} {r : Request}
    (hs : ∀ kv ∈ s.visitors, kv.2.countsOk) : (curVisitor s r).countsOk := by
  unfold curVisitor
  cases hl : lookupA (lazyVisitors s r) r.ip with
  | none => rfl
  | some v =>
    simp only [Option.getD_some]
    exact lazyVisitors_countsOk hs _ (lookupA_mem hl)

theorem classify_good {r : Request} (hr : goodOverride r) :
    classify r = Dynamic ∨ classify r = Static := by
  unfold classify
  rcases hr with h | h | h <;> rw [h]
  · by_cases hc : containsTextHtml r.contentType
    · left
      show (if containsTextHtml r.contentType then Dynamic else Static) = Dynamic
      rw [if_pos hc]
    · right
      show (if containsTextHtml r.contentType then Dynamic else Static) = Static
      rw [if_neg hc]
  · left; rfl
  · right; rfl

theorem stepVisitor_countsOk {v : Visitor} {pt : PageType} {idx : Nat}
    (hv : v.countsOk) (hpt : pt = Dynamic ∨ pt = Static) :
    (stepVisitor v pt idx).countsOk := by
  unfold Visitor.countsOk at hv ⊢
  unfold stepVisitor
  simp only [List.length_append, List.length_cons, List.length_nil]
  rcases hpt with h | h <;> subst h
  · rw [if_pos rfl, if_neg (by decide : ¬ (Dynamic = Static))]
    omega
  · rw [if_neg (by decide : ¬ (Static = Dynamic)), if_pos rfl]
    omega

theorem record_preserves_countsOk (s : Statistics) (r : Request) (now : Int)
    (hr : goodOverride r) (hs : ∀ kv ∈ s.visitors, kv.2.countsOk) :
    ∀ kv ∈ (s.record r now).visitors, kv.2.countsOk := by
  intro kv hkv
  have hv : (s.record r now).visitors =
      modifyA (lazyVisitors s r) r.ip
        (fun _ => stepVisitor (curVisitor s r) (classify r)
          (touchLastDynamic s.heap (curVisitor s r) now).length) := rfl
  rw [hv] at hkv
  rcases mem_modifyA hkv with h | ⟨kv', hmem', heq⟩
  · exact lazyVisitors_countsOk hs kv h
  · rw [heq]
    exact stepVisitor_countsOk (curVisitor_countsOk hs) (classify_good hr)

theorem recordAll_countsOk_aux (steps : List (Request × Int)) (s : Statistics)
    (hs : ∀ kv ∈ s.visitors, kv.2.countsOk)
    (hov : ∀ p ∈ steps, goodOverride p.1) :
    ∀ kv ∈ (steps.foldl (fun s p => s.record p.1 p.2) s).visitors, kv.2.countsOk := by
  induction steps generalizing s with
  | nil => exact hs
  | cons p rest ih =>
    simp only [List.foldl_cons]
    exact ih _ (record_preserves_countsOk _ _ _ (hov p (List.mem_cons_self _ _)) hs)
      (fun q hq => hov q (List.mem_cons_of_mem _ hq))

theorem bsearch_spec (xs : List Visit) (d : Int)
    (hs : ∀ k₁ k₂ : Nat, k₁ ≤ k₂ → k₂ < xs.length →
      (xs.getD k₁ Visit.zero).date ≤ (xs.getD k₂ Visit.zero).date) :
    ∀ i j, i ≤ j → j ≤ xs.length →
    (∀ k, k < i → (xs.getD k Visit.zero).date < d) →
    (∀ k, j ≤ k → k < xs.length → ¬ (xs.getD k Visit.zero).date < d) →
    (∀ k, k < bsearch xs d i j → (xs.getD k Visit.zero).date < d) ∧
    (∀ k, bsearch xs d i j ≤ k → k < xs.length → ¬ (xs.getD k Visit.zero).date < d) ∧
    i ≤ bsearch xs d i j ∧ bsearch xs d i j ≤ j := by
  intro i j
  induction i, j using bsearch.induct xs d with
  | case1 i j h hd ih =>
    intro hij hjn hlo hhi
    rw [bsearch, dif_pos h, if_pos hd]
    have hres := ih (by omega) hjn
      (fun k hk =>
        lt_of_le_of_lt (hs k ((i + j) / 2) (by omega) (by omega)) hd)
      hhi
    exact ⟨hres.1, hres.2.1, by omega, hres.2.2.2⟩
  | case2 i j h hd ih =>
    intro hij hjn hlo hhi
    rw [bsearch, dif_pos h, if_neg hd]
    have hres := ih (by omega) (by omega) hlo
      (fun k hjk hkn hlt => hd (lt_of_le_of_lt (hs ((i + j) / 2) k hjk hkn) hlt))
    exact ⟨hres.1, hres.2.1, hres.2.2.1, by omega⟩
  | case3 i j h =>
    intro hij hjn hlo hhi
    rw [bsearch, dif_neg h]
    exact ⟨hlo, fun k hk hkn => hhi k (by omega) hkn, Nat.le_refl i, by omega⟩

theorem getVisitByDate_some {visits : List Visit} {d : Int} {v : Visit}
    (h : getVisitByDate visits d = some v) : v ∈ visits ∧ v.date = d := by
  unfold getVisitByDate at h
  cases hg : visits[bsearch visits d 0 visits.length]? with
  | none =>
    rw [hg] at h
    exact absurd (h : (none : Option Visit) = some v) (by simp)
  | some w =>
    rw [hg] at h
    have h' : (if w.date = d then some w else none) = some v := h
    by_cases hd : w.date = d
    · rw [if_pos hd] at h'
      obtain rfl : w = v := by injection h'
      exact ⟨List.getElem?_mem hg, hd⟩
    · rw [if_neg hd] at h'
      exact absurd h' (by simp)

theorem record_updates_last_dynamic (s : Statistics) (r : Request) (now : Int)
    (v : Visitor) (i : Nat) (w : Visit)
    (h1 : lookupA s.visitors r.ip = some v)
    (h2 : v.history.length > 1)
    (h3 : v.lastDynamicVisitIdx s.heap = some i)
    (h4 : s.heap[i]? = some w) :
    (s.record r now).heap[i]? = some { w with timeSpent := now - w.date } := by
  have hcur : curVisitor s r = v := by
    unfold curVisitor lazyVisitors
    rw [h1]
    show (lookupA s.visitors r.ip).getD (freshVisitor r) = v
    rw [h1]
    rfl
  have hheap : (s.record r now).heap =
      touchLastDynamic s.heap (curVisitor s r) now ++
        [mkVisit (s.currentVisitID + 1) now (classify r) r] := rfl
  have htouch : touchLastDynamic s.heap v now =
      s.heap.set i { w with timeSpent := now - w.date } := by
    unfold touchLastDynamic
    rw [if_pos h2, h3]
    show (match s.heap[i]? with
      | some w => s.heap.set i { w with timeSpent := now - w.date }
      | none => s.heap) = _
    rw [h4]
  obtain ⟨hlen, -⟩ := List.getElem?_eq_some.mp h4
  rw [hheap, hcur, htouch]
  rw [List.getElem?_append_left (by rw [List.length_set]; exact hlen)]
  exact List.getElem?_set_self hlen

/-! Claim theorems. -/

/-- C1: with two requests whose identifier allocations both precede either
post-processing block — a schedule the middleware permits, since the lock
is dropped around the downstream handler — both visits are constructed
with ID 2 (the source reads `s.currentVisitID` at post-processing instead
of the context value saved at allocation), the second overwrites the first
in the ID-keyed map, and the final visit count is 1, not 2: the claimed
invariant (N visits with distinct, strictly increasing IDs matching the
allocation) fails on the code. -/
theorem c1_concurrent_id_collision :
    c1s.visitsCount = 1 ∧ c1s.heap.map Visit.id = [2, 2] := by decide

/-- C2: on an entity whose only visit is static (zero dynamic-type
visits), Page.AverageTimeSpent, Page.AverageLoadingTime and
Visitor.AverageTimeSpent all divide by the zero dynamic count, which in Go
is a runtime panic (modelled as `none`) — not the zero return the claim
states. -/
theorem c2_average_zero_dynamic_panics :
    (c2s.getPage "/a").visits ≠ [] ∧
    (c2s.getPage "/a").averageTimeSpent c2s.heap = none ∧
    (c2s.getPage "/a").averageLoadingTime c2s.heap = none ∧
    (c2s.getVisitor "ip1").averageTimeSpent c2s.heap = none := by decide

/-- C3 counterexample: in the three-dynamic-visit scenario at times
10 < 15 < 22, after the second recording the first visit's time-spent is
still 0, not t1 - t0 = 5: the update only fires when the visitor already
has more than one prior history entry. -/
theorem c3_counterexample :
    (c3s2.heap[0]?).map Visit.timeSpent = some 0 ∧ ((0 : Int) ≠ 15 - 10) := by decide

/-- C3 amended: recording the second visit leaves the first visit's
time-spent at zero; the third recording sets the second visit's time-spent
to t2 - t1 while the first and third visits stay at zero; and in general,
when the visitor already exists with at least two prior history entries
and has a most recent prior dynamic visit, recording a new visit sets that
prior visit's time-spent to the gap between now and its timestamp. -/
theorem c3_amended :
    ((c3s3.heap[0]?).map Visit.timeSpent = some 0 ∧
     (c3s3.heap[1]?).map Visit.timeSpent = some (22 - 15) ∧
     (c3s3.heap[2]?).map Visit.timeSpent = some 0) ∧
    ∀ (s : Statistics) (r : Request) (now : Int) (v : Visitor) (i : Nat) (w : Visit),
      lookupA s.visitors r.ip = some v →
      v.history.length > 1 →
      v.lastDynamicVisitIdx s.heap = some i →
      s.heap[i]? = some w →
      (s.record r now).heap[i]? = some { w with timeSpent := now - w.date } :=
  ⟨by decide, fun s r now v i w h1 h2 h3 h4 =>
    record_updates_last_dynamic s r now v i w h1 h2 h3 h4⟩

/-- C3 witness: the general part of the amended claim applied to the
scenario state after two recordings, with the third recording at time 22
updating the dynamic visit recorded at time 15. -/
theorem c3_amended_witness :
    (c3s2.record c3r 22).heap[1]? = some { c3w with timeSpent := 22 - c3w.date } :=
  c3_amended.2 c3s2 c3r 22 c3v 1 c3w (by decide) (by decide) (by decide) (by decide)

/-- C4: a reachable state with one visitor whose single visit is static:
the visitor has zero dynamic visits, and EstimatedCurrentVisitors panics
(`none`) because it calls Visitor.AverageTimeSpent on that visitor, which
divides by the zero dynamic count — the claim's "comparison is simply
false, never raises" fails on the code. -/
theorem c4_estimated_visitors_panics :
    c2s.visitorsCount = 1 ∧ (c2s.getVisitor "ip1").dynamicVisits = 0 ∧
    c2s.estimatedCurrentVisitors 20 = none := by decide

/-- C5: with one recorded page, the slice copied by MostVisitedPages is
`[nil, page]` — `make([]*Page, len)` pre-fills length-many nil entries and
the loop appends after them — so the copy does not "contain exactly the
pages", and the sort comparator dereferences a nil `*Page` (modelled by
`pageCmp none _ = none`, a panic). -/
theorem c5_pages_copy_contains_nil :
    c5s.pages.length = 1 ∧
    c5s.pagesSliceCopy = [none, some ⟨"", [0]⟩] ∧
    pageCmp none (some ⟨"", [0]⟩) = none := by decide

/-- C6: on a state with zero visitors, AverageDynamicVisitsPerVisitor
divides the total history length by the visitor count 0, a Go runtime
panic (modelled as `none`) — not the zero return the claim states. -/
theorem c6_average_visits_empty_panics :
    Statistics.new.visitorsCount = 0 ∧
    Statistics.new.averageDynamicVisitsPerVisitor = none := by decide

/-- C7: after recording a request for path "/a" the page entity exists
under the key "/a", but its Path field is the empty string — the recorder
stores the zero value `&Page{}` and never assigns Path — so GetPage("/a")
returns a page whose identifying field is "" rather than "/a", and is
indistinguishable from the not-found placeholder. -/
theorem c7_page_path_left_empty :
    (lookupA c7s.pages "/a").isSome = true ∧
    (c7s.getPage "/a").path = "" ∧ ("" : String) ≠ "/a" := by decide

/-- C8: over a strictly chronologically ordered visit sequence (the order
both Page.Visits and Visitor.History are maintained in), GetVisit by
timestamp returns the visit stored with exactly that timestamp, and
returns the explicit not-found error for any timestamp that was never
inserted. -/
theorem c8_getVisit_roundtrip (visits : List Visit) (d : Int) :
    (visits.Pairwise (fun a b => a.date < b.date) →
      ∀ v ∈ visits, v.date = d → getVisitByDate visits d = some v) ∧
    ((∀ v ∈ visits, v.date ≠ d) → getVisitByDate visits d = none) := by
  constructor
  · intro hsorted v hv hvd
    obtain ⟨m, hmlt, hget⟩ := List.mem_iff_getElem.mp hv
    have hmono : ∀ k₁ k₂ : Nat, k₁ ≤ k₂ → k₂ < visits.length →
        (visits.getD k₁ Visit.zero).date ≤ (visits.getD k₂ Visit.zero).date := by
      intro k₁ k₂ hle hk2
      rcases Nat.eq_or_lt_of_le hle with rfl | hlt
      · exact le_refl _
      · have h1 : k₁ < visits.length := lt_trans hlt hk2
        rw [List.getD_eq_getElem?_getD, List.getD_eq_getElem?_getD,
          List.getElem?_eq_getElem h1, List.getElem?_eq_getElem hk2]
        exact le_of_lt (List.pairwise_iff_getElem.mp hsorted k₁ k₂ h1 hk2 hlt)
    have hspec := bsearch_spec visits d hmono 0 visits.length
      (Nat.zero_le _) (le_refl _)
      (fun k hk => absurd hk (Nat.not_lt_zero k))
      (fun k hk hkn => absurd hkn (Nat.not_lt.mpr hk))
    have hmgetD : (visits.getD m Visit.zero).date = d := by
      rw [List.getD_eq_getElem?_getD, List.getElem?_eq_getElem hmlt]
      rw [Option.getD_some, hget, hvd]
    have hrm : bsearch visits d 0 visits.length = m := by
      by_contra hne
      rcases Nat.lt_or_ge (bsearch visits d 0 visits.length) m with hlt | hge
      · have h2 := hspec.2.1 (bsearch visits d 0 visits.length) (le_refl _)
          (lt_trans hlt hmlt)
        have hsl : (visits.getD (bsearch visits d 0 visits.length) Visit.zero).date <
            (visits.getD m Visit.zero).date := by
          rw [List.getD_eq_getElem?_getD, List.getD_eq_getElem?_getD,
            List.getElem?_eq_getElem (lt_trans hlt hmlt), List.getElem?_eq_getElem hmlt]
          exact List.pairwise_iff_getElem.mp hsorted _ m (lt_trans hlt hmlt) hmlt hlt
        rw [hmgetD] at hsl
        exact h2 hsl
      · have hlt : m < bsearch visits d 0 visits.length := by omega
        have h1 := hspec.1 m hlt
        rw [hmgetD] at h1
        exact lt_irrefl d h1
    unfold getVisitByDate
    rw [hrm, List.getElem?_eq_getElem hmlt]
    show (if visits[m].date = d then some visits[m] else none) = some v
    rw [hget, if_pos hvd]
  · intro hnone
    cases hres : getVisitByDate visits d with
    | none => rfl
    | some w =>
      obtain ⟨hmem, hdate⟩ := getVisitByDate_some hres
      exact absurd hdate (hnone w hmem)

/-- C8 witness: a concrete sorted three-visit history where the lookup at
time 15 returns the stored visit and the lookup at the never-inserted
time 13 returns the not-found error. -/
theorem c8_witness :
    getVisitByDate [c8v1, c8v2, c8v3] 15 = some c8v2 ∧
    getVisitByDate [c8v1, c8v2, c8v3] 13 = none :=
  ⟨(c8_getVisit_roundtrip [c8v1, c8v2, c8v3] 15).1 (by decide) c8v2 (by decide) (by decide),
   (c8_getVisit_roundtrip [c8v1, c8v2, c8v3] 13).2 (by decide)⟩

/-- C9: starting from the fresh state, after any sequence of recordings
whose explicit overrides (when present) are the Dynamic or Static
constants, every visitor in the model satisfies dynamic-visit count plus
static-visit count equals history length. -/
theorem c9_counts_invariant (steps : List (Request × Int))
    (hov : ∀ p ∈ steps, goodOverride p.1) :
    ∀ kv ∈ (Statistics.recordAll steps).visitors, kv.2.countsOk :=
  recordAll_countsOk_aux steps Statistics.new
    (by intro kv h; simp [Statistics.new] at h) hov

/-- C9 witness: the invariant instantiated on the visitor produced by one
dynamic and one static recording from the same address. -/
theorem c9_witness : (⟨"ip1", "", 1, 1, [0, 1]⟩ : Visitor).countsOk :=
  c9_counts_invariant [(reqDyn "/a" "ip1", 10), (reqStatic "/b" "ip1", 20)] (by decide)
    (⟨"ip1", ⟨"ip1", "", 1, 1, [0, 1]⟩⟩ : String × Visitor) (by decide)

/-- C10: LastDynamicVisit is total: it equals the last dynamic-type
element of the history when one exists — the most recent dynamic visit —
and the zero-valued placeholder Visit when the history contains no
dynamic visit (including the empty history); no out-of-bounds access can
occur. -/
theorem c10_lastDynamicVisit_total (history : List Visit) :
    lastDynamicVisit history =
      ((history.filter (fun v => decide (v.type = Dynamic))).getLast?).getD Visit.zero := by
  unfold lastDynamicVisit
  rw [findLastDynamic_eq_filter_getLast]

end SGo
